import Mathlib

/-!
Verification of the `speedlimit` token-bucket rate limiter
(`src/speedlimit/__init__.py`, class `SpeedLimit`).

Times, rates and token counts are modelled as rationals (the Python code
uses real-number arithmetic on floats); counters are naturals.  The
monotonic clock readings (`monotonic()` calls in the source) are passed in
explicitly, one parameter per call site, so that every claim can quantify
over arbitrary clock values.  The injected `sleep_func` is modelled by
recording the list of durations the code passes to it; `TooSlowError` and
the constructor's `assert` are modelled as explicit error values.
-/

namespace SpeedLimitModel

/-- Python `int(x)` truncation toward zero, applied to an exact rational. -/
def pyInt (x : ℚ) : ℤ := if x < 0 then ⌈x⌉ else ⌊x⌋

/-- The mutable state of a `SpeedLimit` instance: one field per attribute
set in `SpeedLimit.__init__` (leading underscores dropped). -/
structure SpeedLimit where
  refresh_rate_seconds : ℚ
  bucket : ℚ
  items_per_tic : ℚ
  next_fill : ℚ
  last_check : ℚ
  last_size : ℚ
  check_interval : ℚ
  max_left_per_second : ℚ
  slow_count : ℕ
  too_slow_count : ℕ
deriving DecidableEq, Repr

/-- The error raised by the constructor's `assert min_per_second <=
items_per_second` (the spec's `ConfigurationError`). -/
inductive ConfigurationError
  | minGreaterThanMax
deriving DecidableEq, Repr

/-- `TooSlowError('%s>%s' % (self._bucket, _max_left))`: carries the
observed bucket size and the computed maximum allowed size. -/
structure TooSlowError where
  bucket : ℚ
  max_left : ℚ
deriving DecidableEq, Repr

/-- `SpeedLimit.__init__`.  `nowA` and `nowB` are the two `_now()` readings
(line 82 for `_next_fill`, line 90 for `_last_check`). -/
def SpeedLimit.init (items_per_second refresh_rate_seconds initial_bucket_size
    min_per_second check_interval : ℚ) (too_slow_count : ℕ)
    (nowA nowB : ℚ) : Except ConfigurationError SpeedLimit :=
  let ips := if items_per_second = 0 then 10 ^ 10 else items_per_second
  if min_per_second ≤ ips then
    let ci := if min_per_second = 0 then 10 ^ 10 else check_interval
    Except.ok
      { refresh_rate_seconds := refresh_rate_seconds
        bucket := ips * refresh_rate_seconds * initial_bucket_size
        items_per_tic := ips * refresh_rate_seconds
        next_fill := nowA + refresh_rate_seconds
        last_check := nowB
        last_size := ips * refresh_rate_seconds * initial_bucket_size
        check_interval := ci
        max_left_per_second := (ips - min_per_second) * initial_bucket_size
        slow_count := 0
        too_slow_count := too_slow_count }
  else Except.error ConfigurationError.minGreaterThanMax

/-- The fill half of `_check_fill` (lines 101–106): credit whole elapsed
tics when `now > self._next_fill`. -/
def fillStep (s : SpeedLimit) (now : ℚ) : SpeedLimit :=
  if s.next_fill < now then
    let d := now - s.next_fill
    let tics := ⌈d / s.refresh_rate_seconds⌉
    { s with
      bucket := s.bucket + (tics : ℚ) * s.items_per_tic
      next_fill := s.next_fill + (tics : ℚ) * s.refresh_rate_seconds }
  else s

/-- The slow-consumer half of `_check_fill` (lines 108–117).  Returns the
updated state and `some e` when `TooSlowError` is raised (in which case the
two trailing assignments are skipped, as the exception propagates). -/
def slowCheck (s : SpeedLimit) (now : ℚ) : SpeedLimit × Option TooSlowError :=
  if s.check_interval < now - s.last_check then
    let d := now - s.last_check
    let max_left := s.last_size + s.max_left_per_second * d
    if max_left < s.bucket then
      let s1 : SpeedLimit := { s with slow_count := s.slow_count + 1 }
      if s1.too_slow_count ≤ s1.slow_count then
        (s1, some ⟨s1.bucket, max_left⟩)
      else
        ({ s1 with last_size := s1.bucket, last_check := now }, none)
    else
      ({ s with last_size := s.bucket, last_check := now }, none)
  else (s, none)

/-- `SpeedLimit._check_fill`, with one clock reading `now` used by both
halves. -/
def checkFill (s : SpeedLimit) (now : ℚ) : SpeedLimit × Option TooSlowError :=
  slowCheck (fillStep s now) now

/-- Result of processing one chunk in `speed_limit_iter`: the state after
the loop body, the durations passed to `self._sleep`, and the
`TooSlowError` if one propagated. -/
structure StepOut where
  state : SpeedLimit
  sleeps : List ℚ
  err : Option TooSlowError
deriving DecidableEq, Repr

/-- The body of the `for chunk in itr` loop of `speed_limit_iter`
(lines 126–142) for one chunk of size `sz`.  `now1` is the clock reading
inside the first `_check_fill`, `now2` the reading at line 133, and `now3`
the reading inside the post-sleep `_check_fill`. -/
def limitStep (s : SpeedLimit) (sz : ℚ) (now1 now2 now3 : ℚ) : StepOut :=
  let p1 := checkFill s now1
  let s1 := p1.1
  if p1.2.isSome then ⟨s1, [], p1.2⟩
  else if s1.bucket < sz then
    let tics := pyInt ((sz - s1.bucket) / s1.items_per_tic)
    let tm_diff := s1.next_fill - now2
    let secs0 := (tics : ℚ) * s1.refresh_rate_seconds
    let secs := if 0 < tm_diff then secs0 + tm_diff else secs0
    let p2 := checkFill s1 now3
    if p2.2.isSome then ⟨p2.1, [secs], p2.2⟩
    else ⟨{ p2.1 with bucket := p2.1.bucket - sz }, [secs], none⟩
  else ⟨{ s1 with bucket := s1.bucket - sz }, [], none⟩

/-- One scheduled chunk: its size (the value of `chunk_size_cb(chunk)`,
or `1` when the callback is `None`) and the three clock readings its loop
iteration observes. -/
structure ChunkStep where
  sz : ℚ
  now1 : ℚ
  now2 : ℚ
  now3 : ℚ
deriving DecidableEq, Repr

/-- Run `speed_limit_iter` over a whole list of chunks, accumulating the
sleep durations; iteration stops when `TooSlowError` propagates. -/
def run (s : SpeedLimit) : List ChunkStep → SpeedLimit × List ℚ × Option TooSlowError
  | [] => (s, [], none)
  | c :: rest =>
    let o := limitStep s c.sz c.now1 c.now2 c.now3
    if o.err.isSome then (o.state, o.sleeps, o.err)
    else
      let r := run o.state rest
      (r.1, o.sleeps ++ r.2.1, r.2.2)

/-! ### Concrete instances used in witnesses and counterexamples -/

/-- The state produced by `SpeedLimit(items_per_second=10)` with all other
arguments at their defaults, constructed at monotonic time `0`. -/
def sTen : SpeedLimit :=
  { refresh_rate_seconds := 1
    bucket := 10
    items_per_tic := 10
    next_fill := 1
    last_check := 0
    last_size := 10
    check_interval := 10 ^ 10
    max_left_per_second := 10
    slow_count := 0
    too_slow_count := 10 }

/-- The state produced by `SpeedLimit()` (unlimited mode: `items_per_second`
unset, so the `10**10` sentinel rate is used), constructed at time `0`. -/
def sUnlimited : SpeedLimit :=
  { refresh_rate_seconds := 1
    bucket := 10 ^ 10
    items_per_tic := 10 ^ 10
    next_fill := 1
    last_check := 0
    last_size := 10 ^ 10
    check_interval := 10 ^ 10
    max_left_per_second := 10 ^ 10
    slow_count := 0
    too_slow_count := 10 }

/-- The state produced by `SpeedLimit(items_per_second=10, min_per_second=9,
check_interval=1)` (slowness detection on) constructed at monotonic time `0`:
`_max_left_per_second = (10-9)*1 = 1`. -/
def s4Start : SpeedLimit :=
  { refresh_rate_seconds := 1
    bucket := 10
    items_per_tic := 10
    next_fill := 1
    last_check := 0
    last_size := 10
    check_interval := 1
    max_left_per_second := 1
    slow_count := 0
    too_slow_count := 10 }

/-- `s4Start` after one loop iteration at time `5/2` (a first slowness
violation was recorded: `_slow_count = 1`). -/
def s4Mid : SpeedLimit :=
  { refresh_rate_seconds := 1
    bucket := 30
    items_per_tic := 10
    next_fill := 3
    last_check := 5/2
    last_size := 30
    check_interval := 1
    max_left_per_second := 1
    slow_count := 1
    too_slow_count := 10 }

/-- `s4Mid` after a chunk of size 28 was debited at time `13/5`. -/
def s4End : SpeedLimit :=
  { refresh_rate_seconds := 1
    bucket := 2
    items_per_tic := 10
    next_fill := 3
    last_check := 5/2
    last_size := 30
    check_interval := 1
    max_left_per_second := 1
    slow_count := 1
    too_slow_count := 10 }

/-- A state one violation short of the threshold (`_slow_count = 9`,
`_too_slow_count = 10`), used to exercise the raising branch of the
slowness check. -/
def sViol : SpeedLimit :=
  { refresh_rate_seconds := 1
    bucket := 5
    items_per_tic := 1
    next_fill := 100
    last_check := 0
    last_size := 0
    check_interval := 1
    max_left_per_second := 0
    slow_count := 9
    too_slow_count := 10 }

/-! ### Basic lemmas about `fillStep` -/

theorem fill_noop {s : SpeedLimit} {now : ℚ} (h : now ≤ s.next_fill) :
    fillStep s now = s := by
  simp only [fillStep, if_neg (not_lt.mpr h)]

theorem fill_eq {s : SpeedLimit} {now : ℚ} (h : s.next_fill < now) :
    fillStep s now =
      { s with
        bucket := s.bucket +
          (⌈(now - s.next_fill) / s.refresh_rate_seconds⌉ : ℚ) * s.items_per_tic
        next_fill := s.next_fill +
          (⌈(now - s.next_fill) / s.refresh_rate_seconds⌉ : ℚ) * s.refresh_rate_seconds } := by
  simp only [fillStep, if_pos h]

theorem fill_next_ge {s : SpeedLimit} {now : ℚ}
    (hr : 0 < s.refresh_rate_seconds) :
    now ≤ (fillStep s now).next_fill := by
  by_cases h : s.next_fill < now
  · rw [fill_eq h]
    have h1 : (now - s.next_fill) / s.refresh_rate_seconds ≤
        (⌈(now - s.next_fill) / s.refresh_rate_seconds⌉ : ℚ) := Int.le_ceil _
    have h2 : now - s.next_fill ≤
        (⌈(now - s.next_fill) / s.refresh_rate_seconds⌉ : ℚ) * s.refresh_rate_seconds := by
      rw [div_le_iff₀ hr] at h1
      exact h1
    simpa using by linarith
  · push_neg at h
    rw [fill_noop h]
    exact h

theorem fill_bucket_le {s : SpeedLimit} {now : ℚ}
    (hr : 0 ≤ s.refresh_rate_seconds) (hi : 0 ≤ s.items_per_tic) :
    s.bucket ≤ (fillStep s now).bucket := by
  by_cases h : s.next_fill < now
  · rw [fill_eq h]
    have hc : (0:ℤ) ≤ ⌈(now - s.next_fill) / s.refresh_rate_seconds⌉ := by
      apply Int.ceil_nonneg
      apply div_nonneg ?_ hr
      linarith
    have hcq : (0:ℚ) ≤ ((⌈(now - s.next_fill) / s.refresh_rate_seconds⌉ : ℤ) : ℚ) := by
      exact_mod_cast hc
    have := mul_nonneg hcq hi
    simpa using by linarith
  · rw [fill_noop (not_lt.mp h)]

theorem fill_fields (s : SpeedLimit) (now : ℚ) :
    (fillStep s now).refresh_rate_seconds = s.refresh_rate_seconds ∧
    (fillStep s now).items_per_tic = s.items_per_tic ∧
    (fillStep s now).last_check = s.last_check ∧
    (fillStep s now).last_size = s.last_size ∧
    (fillStep s now).check_interval = s.check_interval ∧
    (fillStep s now).max_left_per_second = s.max_left_per_second ∧
    (fillStep s now).slow_count = s.slow_count ∧
    (fillStep s now).too_slow_count = s.too_slow_count := by
  unfold fillStep
  split <;> exact ⟨rfl, rfl, rfl, rfl, rfl, rfl, rfl, rfl⟩

/-! ### Basic lemmas about `slowCheck` -/

theorem slowCheck_fields (s : SpeedLimit) (now : ℚ) :
    ((slowCheck s now).1.refresh_rate_seconds = s.refresh_rate_seconds ∧
     (slowCheck s now).1.items_per_tic = s.items_per_tic ∧
     (slowCheck s now).1.next_fill = s.next_fill ∧
     (slowCheck s now).1.check_interval = s.check_interval ∧
     (slowCheck s now).1.max_left_per_second = s.max_left_per_second ∧
     (slowCheck s now).1.too_slow_count = s.too_slow_count) ∧
    (slowCheck s now).1.bucket = s.bucket := by
  simp only [slowCheck]
  split_ifs <;> exact ⟨⟨rfl, rfl, rfl, rfl, rfl, rfl⟩, rfl⟩

theorem slowCheck_slow_count_ge (s : SpeedLimit) (now : ℚ) :
    s.slow_count ≤ (slowCheck s now).1.slow_count := by
  simp only [slowCheck]
  split_ifs <;> first | exact Nat.le_succ _ | exact le_refl _

theorem checkFill_slow_count_ge (s : SpeedLimit) (now : ℚ) :
    s.slow_count ≤ (checkFill s now).1.slow_count := by
  unfold checkFill
  calc s.slow_count = (fillStep s now).slow_count := ((fill_fields s now).2.2.2.2.2.2.1).symm
    _ ≤ _ := slowCheck_slow_count_ge _ _

theorem fill_idem {s : SpeedLimit} {now : ℚ}
    (hr : 0 < s.refresh_rate_seconds) :
    fillStep (fillStep s now) now = fillStep s now :=
  fill_noop (fill_next_ge hr)

theorem fill_mono {s : SpeedLimit} {t t' : ℚ} (htt : t ≤ t')
    (hr : 0 < s.refresh_rate_seconds) (hi : 0 ≤ s.items_per_tic) :
    (fillStep s t).bucket ≤ (fillStep s t').bucket := by
  by_cases h : s.next_fill < t
  · have h' : s.next_fill < t' := lt_of_lt_of_le h htt
    rw [fill_eq h, fill_eq h']
    have hc : (⌈(t - s.next_fill) / s.refresh_rate_seconds⌉ : ℤ) ≤
        ⌈(t' - s.next_fill) / s.refresh_rate_seconds⌉ := by
      apply Int.ceil_le_ceil
      apply (div_le_div_iff_of_pos_right hr).mpr
      linarith
    have hcq : ((⌈(t - s.next_fill) / s.refresh_rate_seconds⌉ : ℤ) : ℚ) ≤
        ((⌈(t' - s.next_fill) / s.refresh_rate_seconds⌉ : ℤ) : ℚ) := by
      exact_mod_cast hc
    have := mul_le_mul_of_nonneg_right hcq hi
    simpa using by linarith
  · by_cases h' : s.next_fill < t'
    · rw [fill_noop (not_lt.mp h), fill_eq h']
      have hc : (0:ℤ) ≤ ⌈(t' - s.next_fill) / s.refresh_rate_seconds⌉ := by
        apply Int.ceil_nonneg
        apply div_nonneg ?_ hr.le
        linarith
      have hcq : (0:ℚ) ≤ ((⌈(t' - s.next_fill) / s.refresh_rate_seconds⌉ : ℤ) : ℚ) := by
        exact_mod_cast hc
      have := mul_nonneg hcq hi
      simpa using by linarith
    · rw [fill_noop (not_lt.mp h), fill_noop (not_lt.mp h')]

/-! ### Lemmas about `checkFill`, `limitStep` and `run` -/

theorem pyInt_of_nonneg {x : ℚ} (h : 0 ≤ x) : pyInt x = ⌊x⌋ := by
  simp only [pyInt, if_neg (not_lt.mpr h)]

theorem if_pos_add_eq_max (a b : ℚ) : (if 0 < b then a + b else a) = a + max b 0 := by
  split_ifs with h
  · rw [max_eq_left h.le]
  · rw [max_eq_right (not_lt.mp h), add_zero]

theorem checkFill_fields (s : SpeedLimit) (now : ℚ) :
    (checkFill s now).1.refresh_rate_seconds = s.refresh_rate_seconds ∧
    (checkFill s now).1.items_per_tic = s.items_per_tic := by
  unfold checkFill
  have h1 := fill_fields s now
  have h2 := (slowCheck_fields (fillStep s now) now).1
  exact ⟨h2.1.trans h1.1, h2.2.1.trans h1.2.1⟩

theorem checkFill_bucket_ge (s : SpeedLimit) (now : ℚ)
    (hr : 0 ≤ s.refresh_rate_seconds) (hi : 0 ≤ s.items_per_tic) :
    s.bucket ≤ (checkFill s now).1.bucket := by
  unfold checkFill
  rw [(slowCheck_fields (fillStep s now) now).2]
  exact fill_bucket_le hr hi

theorem run_no_sleep (cs : List ChunkStep) (s : SpeedLimit)
    (hr : 0 ≤ s.refresh_rate_seconds) (hi : 0 ≤ s.items_per_tic)
    (hsz : ∀ c ∈ cs, 0 ≤ c.sz)
    (hsum : (cs.map ChunkStep.sz).sum ≤ s.bucket) :
    (run s cs).2.1 = [] := by
  induction cs generalizing s with
  | nil => rfl
  | cons c rest ih =>
    have hsum' : c.sz + (rest.map ChunkStep.sz).sum ≤ s.bucket := by
      simpa using hsum
    have hrest_nonneg : 0 ≤ (rest.map ChunkStep.sz).sum := by
      apply List.sum_nonneg
      intro x hx
      obtain ⟨c', hc', rfl⟩ := List.mem_map.mp hx
      exact hsz c' (List.mem_cons_of_mem _ hc')
    have hsz_le : c.sz ≤ (checkFill s c.now1).1.bucket := by
      have := checkFill_bucket_ge s c.now1 hr hi
      linarith
    by_cases he : (checkFill s c.now1).2.isSome
    · have hadm : limitStep s c.sz c.now1 c.now2 c.now3 =
          ⟨(checkFill s c.now1).1, [], (checkFill s c.now1).2⟩ := by
        simp only [limitStep, if_pos he]
      simp only [run, hadm, he, if_pos]
    · rw [Option.not_isSome_iff_eq_none] at he
      have hadm : limitStep s c.sz c.now1 c.now2 c.now3 =
          ⟨{ (checkFill s c.now1).1 with
              bucket := (checkFill s c.now1).1.bucket - c.sz }, [], none⟩ := by
        simp only [limitStep, he, Option.isSome_none, Bool.false_eq_true, if_false,
          if_neg (not_lt.mpr hsz_le)]
      simp only [run, hadm, Option.isSome_none, Bool.false_eq_true, if_false,
        List.nil_append]
      have hfields := checkFill_fields s c.now1
      have hbge := checkFill_bucket_ge s c.now1 hr hi
      apply ih
      · rw [show ({ (checkFill s c.now1).1 with
            bucket := (checkFill s c.now1).1.bucket - c.sz } :
              SpeedLimit).refresh_rate_seconds =
            (checkFill s c.now1).1.refresh_rate_seconds from rfl, hfields.1]
        exact hr
      · rw [show ({ (checkFill s c.now1).1 with
            bucket := (checkFill s c.now1).1.bucket - c.sz } :
              SpeedLimit).items_per_tic =
            (checkFill s c.now1).1.items_per_tic from rfl, hfields.2]
        exact hi
      · intro c' hc'
        exact hsz c' (List.mem_cons_of_mem _ hc')
      · rw [show ({ (checkFill s c.now1).1 with
            bucket := (checkFill s c.now1).1.bucket - c.sz } :
              SpeedLimit).bucket = (checkFill s c.now1).1.bucket - c.sz from rfl]
        linarith

theorem limitStep_slow_count_ge (s : SpeedLimit) (sz now1 now2 now3 : ℚ) :
    s.slow_count ≤ (limitStep s sz now1 now2 now3).state.slow_count := by
  by_cases he : (checkFill s now1).2.isSome
  · have hadm : limitStep s sz now1 now2 now3 =
        ⟨(checkFill s now1).1, [], (checkFill s now1).2⟩ := by
      simp only [limitStep, if_pos he]
    rw [hadm]
    exact checkFill_slow_count_ge s now1
  · by_cases hb : (checkFill s now1).1.bucket < sz
    · by_cases he2 : (checkFill (checkFill s now1).1 now3).2.isSome
      · have hadm : (limitStep s sz now1 now2 now3).state =
            (checkFill (checkFill s now1).1 now3).1 := by
          simp only [limitStep, if_neg he, if_pos hb, if_pos he2]
        rw [hadm]
        exact (checkFill_slow_count_ge s now1).trans
          (checkFill_slow_count_ge (checkFill s now1).1 now3)
      · have hadm : (limitStep s sz now1 now2 now3).state.slow_count =
            (checkFill (checkFill s now1).1 now3).1.slow_count := by
          simp only [limitStep, if_neg he, if_pos hb, if_neg he2]
        rw [hadm]
        exact (checkFill_slow_count_ge s now1).trans
          (checkFill_slow_count_ge (checkFill s now1).1 now3)
    · have hadm : (limitStep s sz now1 now2 now3).state.slow_count =
          (checkFill s now1).1.slow_count := by
        simp only [limitStep, if_neg he, if_neg hb]
      rw [hadm]
      exact checkFill_slow_count_ge s now1

theorem run_slow_count_ge (cs : List ChunkStep) (s : SpeedLimit) :
    s.slow_count ≤ (run s cs).1.slow_count := by
  induction cs generalizing s with
  | nil => exact le_refl _
  | cons c rest ih =>
    simp only [run]
    by_cases he : (limitStep s c.sz c.now1 c.now2 c.now3).err.isSome
    · rw [if_pos he]
      exact limitStep_slow_count_ge s c.sz c.now1 c.now2 c.now3
    · rw [if_neg he]
      exact (limitStep_slow_count_ge s c.sz c.now1 c.now2 c.now3).trans (ih _)

/-! ### Evaluation of concrete scenarios -/

theorem ceil_seven_halves : (⌈(7:ℚ)/2⌉ : ℤ) = 4 := by
  rw [Int.ceil_eq_iff]
  norm_num

theorem ceil_three_halves : (⌈(3:ℚ)/2⌉ : ℤ) = 2 := by
  rw [Int.ceil_eq_iff]
  norm_num

theorem ceil_four_fifths : (⌈(4:ℚ)/5⌉ : ℤ) = 1 := by
  rw [Int.ceil_eq_iff]
  norm_num

theorem floor_one_half : (⌊(1:ℚ)/2⌋ : ℤ) = 0 := by
  rw [Int.floor_eq_iff]
  norm_num

theorem hinitTen : SpeedLimit.init 10 1 1 0 5 10 0 0 = Except.ok sTen := by
  simp only [SpeedLimit.init, sTen]
  norm_num

theorem hinitUnl : SpeedLimit.init 0 1 1 0 5 10 0 0 = Except.ok sUnlimited := by
  simp only [SpeedLimit.init, sUnlimited]
  norm_num

theorem hinit4 : SpeedLimit.init 10 1 1 9 1 10 0 0 = Except.ok s4Start := by
  simp only [SpeedLimit.init, s4Start]
  norm_num

theorem checkTen_zero : checkFill sTen 0 = (sTen, none) := by
  simp only [checkFill, fillStep, slowCheck, sTen]
  norm_num

theorem checkTen_one : checkFill sTen 1 = (sTen, none) := by
  simp only [checkFill, fillStep, slowCheck, sTen]
  norm_num

theorem checkUnl_zero : checkFill sUnlimited 0 = (sUnlimited, none) := by
  simp only [checkFill, fillStep, slowCheck, sUnlimited]
  norm_num

theorem check4_first : checkFill s4Start (5/2) = (s4Mid, none) := by
  simp only [checkFill, fillStep, slowCheck, s4Start, s4Mid]
  norm_num [ceil_three_halves]

theorem limit4_first : limitStep s4Start 0 (5/2) (5/2) (5/2) = ⟨s4Mid, [], none⟩ := by
  simp only [limitStep, check4_first]
  norm_num [s4Mid]

theorem check4_second : checkFill s4Mid (13/5) = (s4Mid, none) := by
  simp only [checkFill, fillStep, slowCheck, s4Mid]
  norm_num

theorem limit4_second : limitStep s4Mid 28 (13/5) (13/5) (13/5) = ⟨s4End, [], none⟩ := by
  simp only [limitStep, check4_second]
  norm_num [s4Mid, s4End]

theorem run4 : run s4Start [⟨0, 5/2, 5/2, 5/2⟩, ⟨28, 13/5, 13/5, 13/5⟩] =
    (s4End, [], none) := by
  simp only [run, limit4_first, limit4_second]
  norm_num

/-- C1: for every call to the fill half of `_check_fill` at monotonic time
`now` (over a positive tic length): if `now > next_fill`, then exactly
`tics = ceil((now - next_fill) / refresh_rate_seconds)` tics are credited
with `tics ≥ 1`, the bucket grows by exactly `tics * items_per_tic`, and
`next_fill` advances by exactly `tics * refresh_rate_seconds`; if
`now ≤ next_fill` the state is unchanged, so partial tics never contribute
tokens early. -/
theorem claim1_fill_whole_tics (s : SpeedLimit) (now : ℚ)
    (hr : 0 < s.refresh_rate_seconds) :
    (s.next_fill < now →
      1 ≤ ⌈(now - s.next_fill) / s.refresh_rate_seconds⌉ ∧
      (fillStep s now).bucket = s.bucket +
        (⌈(now - s.next_fill) / s.refresh_rate_seconds⌉ : ℚ) * s.items_per_tic ∧
      (fillStep s now).next_fill = s.next_fill +
        (⌈(now - s.next_fill) / s.refresh_rate_seconds⌉ : ℚ) * s.refresh_rate_seconds) ∧
    (now ≤ s.next_fill → fillStep s now = s) := by
  constructor
  · intro h
    refine ⟨Int.ceil_pos.mpr (div_pos (by linarith) hr), ?_, ?_⟩
    · rw [fill_eq h]
    · rw [fill_eq h]
  · exact fill_noop

/-- Witness for C1 at `sTen` and `now = 5/2`. -/
theorem claim1_witness :
    (sTen.next_fill < 5/2 →
      1 ≤ ⌈((5/2 : ℚ) - sTen.next_fill) / sTen.refresh_rate_seconds⌉ ∧
      (fillStep sTen (5/2)).bucket = sTen.bucket +
        (⌈((5/2 : ℚ) - sTen.next_fill) / sTen.refresh_rate_seconds⌉ : ℚ) * sTen.items_per_tic ∧
      (fillStep sTen (5/2)).next_fill = sTen.next_fill +
        (⌈((5/2 : ℚ) - sTen.next_fill) / sTen.refresh_rate_seconds⌉ : ℚ) *
          sTen.refresh_rate_seconds) ∧
    ((5/2 : ℚ) ≤ sTen.next_fill → fillStep sTen (5/2) = sTen) :=
  claim1_fill_whole_tics sTen (5/2) (by norm_num [sTen])

/-- C2: one loop iteration of `speed_limit_iter`.  When the size exceeds
the post-fill token count, the wrapper sleeps exactly once, for
`floor((size - bucket) / items_per_tic) * refresh_rate_seconds` plus
`next_fill - now` when that difference is positive; after waking it re-runs
`_check_fill` exactly once and then debits the size.  When the size fits,
it debits immediately with no sleep. -/
theorem claim2_wait_computation (s : SpeedLimit) (sz now1 now2 now3 : ℚ) :
    ((checkFill s now1).2 = none → (checkFill s now1).1.bucket < sz →
      0 < (checkFill s now1).1.items_per_tic →
      (limitStep s sz now1 now2 now3).sleeps =
        [(⌊(sz - (checkFill s now1).1.bucket) / (checkFill s now1).1.items_per_tic⌋ : ℚ) *
          (checkFill s now1).1.refresh_rate_seconds +
          max ((checkFill s now1).1.next_fill - now2) 0] ∧
      (limitStep s sz now1 now2 now3).err = (checkFill (checkFill s now1).1 now3).2 ∧
      ((checkFill (checkFill s now1).1 now3).2 = none →
        (limitStep s sz now1 now2 now3).state =
          { (checkFill (checkFill s now1).1 now3).1 with
            bucket := (checkFill (checkFill s now1).1 now3).1.bucket - sz })) ∧
    ((checkFill s now1).2 = none → sz ≤ (checkFill s now1).1.bucket →
      limitStep s sz now1 now2 now3 =
        ⟨{ (checkFill s now1).1 with bucket := (checkFill s now1).1.bucket - sz },
          [], none⟩) := by
  constructor
  · intro h1 h2 h3
    have hq : 0 ≤ (sz - (checkFill s now1).1.bucket) / (checkFill s now1).1.items_per_tic :=
      le_of_lt (div_pos (by linarith) h3)
    simp only [limitStep, h1, Option.isSome_none, Bool.false_eq_true, if_false,
      if_pos h2, pyInt_of_nonneg hq, if_pos_add_eq_max]
    by_cases he : (checkFill (checkFill s now1).1 now3).2.isSome
    · rw [if_pos he]
      refine ⟨rfl, rfl, ?_⟩
      intro hnone
      rw [hnone] at he
      simp at he
    · rw [if_neg he]
      rw [Option.not_isSome_iff_eq_none] at he
      exact ⟨rfl, he.symm, fun _ => rfl⟩
  · intro h1 h2
    simp only [limitStep, h1, Option.isSome_none, Bool.false_eq_true, if_false,
      if_neg (not_lt.mpr h2)]

/-- Witness for C2: `sTen` with an item of size 15 at times `0, 0, 2`. -/
theorem claim2_witness :
    (checkFill sTen 0).2 = none ∧ (checkFill sTen 0).1.bucket < 15 ∧
    0 < (checkFill sTen 0).1.items_per_tic ∧
    ((limitStep sTen 15 0 0 2).sleeps =
      [(⌊((15:ℚ) - (checkFill sTen 0).1.bucket) / (checkFill sTen 0).1.items_per_tic⌋ : ℚ) *
        (checkFill sTen 0).1.refresh_rate_seconds +
        max ((checkFill sTen 0).1.next_fill - 0) 0] ∧
     (limitStep sTen 15 0 0 2).err = (checkFill (checkFill sTen 0).1 2).2 ∧
     ((checkFill (checkFill sTen 0).1 2).2 = none →
       (limitStep sTen 15 0 0 2).state =
         { (checkFill (checkFill sTen 0).1 2).1 with
           bucket := (checkFill (checkFill sTen 0).1 2).1.bucket - 15 })) := by
  have h1 : (checkFill sTen 0).2 = none := by rw [checkTen_zero]
  have h2 : (checkFill sTen 0).1.bucket < 15 := by
    rw [checkTen_zero]
    norm_num [sTen]
  have h3 : 0 < (checkFill sTen 0).1.items_per_tic := by
    rw [checkTen_zero]
    norm_num [sTen]
  exact ⟨h1, h2, h3, (claim2_wait_computation sTen 15 0 0 2).1 h1 h2 h3⟩

/-- C3: the spec claims the bucket is bounded by `initial_bucket_size` tics
of tokens plus one catch-up tic; the code never enforces any cap (the
module docstring itself says a full bucket discards tokens, and the
`@Next: make _bucket <= init_bucket` note records the missing cap).  From
`SpeedLimit(items_per_second=10)` constructed at time 0, a single
`_check_fill` at time `4.5` with nothing consumed leaves `_bucket = 50`,
strictly above the claimed bound `10*1*1 + 10*1 = 20`. -/
theorem claim3_bucket_unbounded :
    SpeedLimit.init 10 1 1 0 5 10 0 0 = Except.ok sTen ∧
    (fillStep sTen (9/2)).bucket = 50 ∧
    (10 * 1 * 1 + 10 * 1 : ℚ) < (fillStep sTen (9/2)).bucket := by
  have hb : (fillStep sTen (9/2)).bucket = 50 := by
    simp only [fillStep, sTen]
    norm_num [ceil_seven_halves]
  refine ⟨hinitTen, hb, ?_⟩
  rw [hb]
  norm_num

/-- C4 counterexample: a reachable state (constructed via `__init__` and two
loop iterations) with `_slow_count = 1` on which the next slowness check
runs (`now - last_check > check_interval`) and finds no violation, yet the
counter stays at `1` instead of resetting to `0`. -/
theorem claim4_counterexample :
    SpeedLimit.init 10 1 1 9 1 10 0 0 = Except.ok s4Start ∧
    run s4Start [⟨0, 5/2, 5/2, 5/2⟩, ⟨28, 13/5, 13/5, 13/5⟩] = (s4End, [], none) ∧
    s4End.slow_count = 1 ∧
    s4End.check_interval < 19/5 - s4End.last_check ∧
    (fillStep s4End (19/5)).bucket ≤
      s4End.last_size + s4End.max_left_per_second * (19/5 - s4End.last_check) ∧
    (checkFill s4End (19/5)).1.slow_count = 1 := by
  refine ⟨hinit4, run4, rfl, by norm_num [s4End], ?_, ?_⟩
  · simp only [fillStep, s4End]
    norm_num [ceil_four_fifths]
  · simp only [checkFill, fillStep, slowCheck, s4End]
    norm_num [ceil_four_fifths]

/-- C4 (amended): whenever a slowness check runs and finds no violation,
the violation counter is left unchanged (the code never resets it to 0);
the counter also never decreases across a check. -/
theorem claim4_counter_unchanged (s : SpeedLimit) (now : ℚ) :
    (s.check_interval < now - s.last_check →
      s.bucket ≤ s.last_size + s.max_left_per_second * (now - s.last_check) →
      (slowCheck s now).1.slow_count = s.slow_count) ∧
    s.slow_count ≤ (slowCheck s now).1.slow_count := by
  refine ⟨?_, slowCheck_slow_count_ge s now⟩
  intro h hnv
  simp only [slowCheck, if_pos h, if_neg (not_lt.mpr hnv)]

/-- Witness for C4 (amended) at `s4End` and `now = 19/5`. -/
theorem claim4_witness :
    s4End.check_interval < 19/5 - s4End.last_check ∧
    s4End.bucket ≤ s4End.last_size + s4End.max_left_per_second * (19/5 - s4End.last_check) ∧
    (slowCheck s4End (19/5)).1.slow_count = s4End.slow_count ∧
    s4End.slow_count ≤ (slowCheck s4End (19/5)).1.slow_count := by
  have h1 : s4End.check_interval < 19/5 - s4End.last_check := by norm_num [s4End]
  have h2 : s4End.bucket ≤
      s4End.last_size + s4End.max_left_per_second * (19/5 - s4End.last_check) := by
    norm_num [s4End]
  exact ⟨h1, h2, (claim4_counter_unchanged s4End (19/5)).1 h1 h2,
    (claim4_counter_unchanged s4End (19/5)).2⟩

/-- C5: the slowness check is a no-op while `now - last_check ≤
check_interval`; on a violating check it increments the counter and raises
`TooSlowError` (carrying the observed bucket size and the computed maximum
allowed) exactly when the incremented counter reaches the threshold, and on
a non-raising check it resets `last_check`/`last_size` to the current
values on both the violation and no-violation branches. -/
theorem claim5_slowcheck_policy (s : SpeedLimit) (now : ℚ) :
    (now - s.last_check ≤ s.check_interval → slowCheck s now = (s, none)) ∧
    (s.check_interval < now - s.last_check →
      s.last_size + s.max_left_per_second * (now - s.last_check) < s.bucket →
      ((slowCheck s now).1.slow_count = s.slow_count + 1 ∧
       ((slowCheck s now).2 =
          some ⟨s.bucket, s.last_size + s.max_left_per_second * (now - s.last_check)⟩ ↔
         s.too_slow_count ≤ s.slow_count + 1) ∧
       ((slowCheck s now).2 = none →
         (slowCheck s now).1.last_check = now ∧
         (slowCheck s now).1.last_size = s.bucket))) ∧
    (s.check_interval < now - s.last_check →
      s.bucket ≤ s.last_size + s.max_left_per_second * (now - s.last_check) →
      slowCheck s now = ({ s with last_check := now, last_size := s.bucket }, none)) := by
  refine ⟨?_, ?_, ?_⟩
  · intro h
    simp only [slowCheck, if_neg (not_lt.mpr h)]
  · intro h hv
    simp only [slowCheck, if_pos h, if_pos hv]
    by_cases ht : s.too_slow_count ≤ s.slow_count + 1
    · rw [if_pos ht]
      exact ⟨rfl, by simp [ht], by intro hc; simp at hc⟩
    · rw [if_neg ht]
      exact ⟨rfl, by simp [ht], fun _ => ⟨rfl, rfl⟩⟩
  · intro h hnv
    simp only [slowCheck, if_pos h, if_neg (not_lt.mpr hnv)]

/-- Witness for C5: the no-op branch at `s4End`, `now = 3`, and the
raising branch at `sViol`, `now = 2` (counter 9 reaches threshold 10). -/
theorem claim5_witness :
    ((3:ℚ) - s4End.last_check ≤ s4End.check_interval ∧
      slowCheck s4End 3 = (s4End, none)) ∧
    (sViol.check_interval < 2 - sViol.last_check ∧
     sViol.last_size + sViol.max_left_per_second * (2 - sViol.last_check) < sViol.bucket ∧
     ((slowCheck sViol 2).1.slow_count = sViol.slow_count + 1 ∧
      ((slowCheck sViol 2).2 =
         some ⟨sViol.bucket,
           sViol.last_size + sViol.max_left_per_second * (2 - sViol.last_check)⟩ ↔
        sViol.too_slow_count ≤ sViol.slow_count + 1) ∧
      ((slowCheck sViol 2).2 = none →
        (slowCheck sViol 2).1.last_check = 2 ∧
        (slowCheck sViol 2).1.last_size = sViol.bucket))) := by
  have ha : (3:ℚ) - s4End.last_check ≤ s4End.check_interval := by norm_num [s4End]
  have hb1 : sViol.check_interval < 2 - sViol.last_check := by norm_num [sViol]
  have hb2 : sViol.last_size + sViol.max_left_per_second * (2 - sViol.last_check) <
      sViol.bucket := by norm_num [sViol]
  exact ⟨⟨ha, (claim5_slowcheck_policy s4End 3).1 ha⟩,
    ⟨hb1, hb2, (claim5_slowcheck_policy sViol 2).2.1 hb1 hb2⟩⟩

/-- C6 counterexample: with `items_per_second` unset (0) and
`min_per_second = 1 > 0 = items_per_second`, construction nevertheless
succeeds, because the `10**10` sentinel is substituted before the
`assert min_per_second <= items_per_second` runs. -/
theorem claim6_counterexample :
    (SpeedLimit.init 0 1 1 1 5 10 0 0).isOk = true ∧ ¬ ((1:ℚ) ≤ 0) := by
  constructor
  · simp only [SpeedLimit.init]
    norm_num [Except.isOk, Except.toBool]
  · norm_num

/-- C6 (amended): construction succeeds exactly when `min_per_second` does
not exceed the effective rate — `items_per_second` itself when nonzero, or
the `10**10` sentinel substituted for an unset (0) rate. -/
theorem claim6_validation (items_per_second refresh_rate_seconds
    initial_bucket_size min_per_second check_interval : ℚ) (too_slow_count : ℕ)
    (nowA nowB : ℚ) :
    (SpeedLimit.init items_per_second refresh_rate_seconds initial_bucket_size
        min_per_second check_interval too_slow_count nowA nowB).isOk = true ↔
      min_per_second ≤ (if items_per_second = 0 then 10 ^ 10 else items_per_second) := by
  simp only [SpeedLimit.init]
  split_ifs with h1 h2 h3 <;> simp_all [Except.isOk, Except.toBool]

/-- C7 counterexample: from `SpeedLimit(items_per_second=10)` at time 0, an
item of size 15 finds 10 tokens, sleeps the computed `1` second
(`floor(5/10) = 0` tics plus `next_fill - now = 1`), wakes exactly at the
tic boundary `now3 = 1` — where `now > next_fill` is false, so the refill
adds nothing — and the debit leaves `_bucket = -5 < 0`. -/
theorem claim7_counterexample :
    SpeedLimit.init 10 1 1 0 5 10 0 0 = Except.ok sTen ∧
    (limitStep sTen 15 0 0 1).sleeps = [1] ∧
    (limitStep sTen 15 0 0 1).err = none ∧
    (limitStep sTen 15 0 0 1).state.bucket = -5 := by
  have hstep : limitStep sTen 15 0 0 1 =
      ⟨{ sTen with bucket := -5 }, [1], none⟩ := by
    simp only [limitStep, checkTen_zero, checkTen_one]
    norm_num [sTen, pyInt, floor_one_half]
  rw [hstep]
  exact ⟨hinitTen, rfl, rfl, rfl⟩

/-- C7 (amended): when the size fits in the post-fill token count, the item
admits with no sleep and the debit leaves the bucket non-negative; in the
insufficient case the single computed wait need not cover the size (see the
counterexample), so the bucket can be left negative. -/
theorem claim7_no_negative_when_sufficient (s : SpeedLimit) (sz now1 now2 now3 : ℚ)
    (h1 : (checkFill s now1).2 = none) (h2 : sz ≤ (checkFill s now1).1.bucket) :
    (limitStep s sz now1 now2 now3).sleeps = [] ∧
    (limitStep s sz now1 now2 now3).err = none ∧
    (limitStep s sz now1 now2 now3).state.bucket = (checkFill s now1).1.bucket - sz ∧
    0 ≤ (limitStep s sz now1 now2 now3).state.bucket := by
  have hstep : limitStep s sz now1 now2 now3 =
      ⟨{ (checkFill s now1).1 with bucket := (checkFill s now1).1.bucket - sz },
        [], none⟩ := by
    simp only [limitStep, h1, Option.isSome_none, Bool.false_eq_true, if_false,
      if_neg (not_lt.mpr h2)]
  rw [hstep]
  exact ⟨rfl, rfl, rfl, by simpa using h2⟩

/-- Witness for C7 (amended): `sTen` with an item of size 4 at time 0. -/
theorem claim7_witness :
    (checkFill sTen 0).2 = none ∧ (4:ℚ) ≤ (checkFill sTen 0).1.bucket ∧
    ((limitStep sTen 4 0 0 0).sleeps = [] ∧
     (limitStep sTen 4 0 0 0).err = none ∧
     (limitStep sTen 4 0 0 0).state.bucket = (checkFill sTen 0).1.bucket - 4 ∧
     0 ≤ (limitStep sTen 4 0 0 0).state.bucket) := by
  have h1 : (checkFill sTen 0).2 = none := by rw [checkTen_zero]
  have h2 : (4:ℚ) ≤ (checkFill sTen 0).1.bucket := by
    rw [checkTen_zero]
    norm_num [sTen]
  exact ⟨h1, h2, claim7_no_negative_when_sufficient sTen 4 0 0 0 h1 h2⟩

/-- C8: the token count after the fill step never decreases, is monotone in
the elapsed monotonic time (the fill is a deterministic function of `now`),
and running the fill twice at the same instant equals running it once (no
double-fill). -/
theorem claim8_fill_monotone (s : SpeedLimit) (t t' : ℚ) (htt : t ≤ t')
    (hr : 0 < s.refresh_rate_seconds) (hi : 0 ≤ s.items_per_tic) :
    s.bucket ≤ (fillStep s t).bucket ∧
    (fillStep s t).bucket ≤ (fillStep s t').bucket ∧
    fillStep (fillStep s t) t = fillStep s t :=
  ⟨fill_bucket_le hr.le hi, fill_mono htt hr hi, fill_idem hr⟩

/-- Witness for C8 at `sTen`, `t = 3/2`, `t' = 2`. -/
theorem claim8_witness :
    (3/2 : ℚ) ≤ 2 ∧ 0 < sTen.refresh_rate_seconds ∧ 0 ≤ sTen.items_per_tic ∧
    (sTen.bucket ≤ (fillStep sTen (3/2)).bucket ∧
     (fillStep sTen (3/2)).bucket ≤ (fillStep sTen 2).bucket ∧
     fillStep (fillStep sTen (3/2)) (3/2) = fillStep sTen (3/2)) :=
  ⟨by norm_num, by norm_num [sTen], by norm_num [sTen],
    claim8_fill_monotone sTen (3/2) 2 (by norm_num) (by norm_num [sTen])
      (by norm_num [sTen])⟩

/-- C9 counterexample: in unlimited mode (`items_per_second` unset), a
single item of size `10^10 + 1` — one more token than the sentinel reserve
— does trigger a wait: the injected sleep function is invoked (with
duration 1). -/
theorem claim9_counterexample :
    SpeedLimit.init 0 1 1 0 5 10 0 0 = Except.ok sUnlimited ∧
    (run sUnlimited [⟨10 ^ 10 + 1, 0, 0, 0⟩]).2.1 = [1] := by
  have hfl : (⌊(1:ℚ) / 10 ^ 10⌋ : ℤ) = 0 := by
    rw [Int.floor_eq_iff]
    norm_num
  have hstep : limitStep sUnlimited (10 ^ 10 + 1) 0 0 0 =
      ⟨{ sUnlimited with bucket := -1 }, [1], none⟩ := by
    simp only [limitStep, checkUnl_zero]
    norm_num [sUnlimited, pyInt, hfl]
  refine ⟨hinitUnl, ?_⟩
  simp only [run, hstep]
  norm_num

/-- C9 (amended): in unlimited mode no wait is triggered while the consumed
sizes stay within the sentinel reserve: for any nonnegative item sizes
whose sum is at most `10^10 * refresh_rate_seconds * initial_bucket_size`
and any clock readings, the sleep function is never invoked.  (A single
larger item can still trigger a sleep, as the counterexample shows.) -/
theorem claim9_unlimited_within_reserve (refresh_rate_seconds initial_bucket_size
    min_per_second check_interval : ℚ) (too_slow_count : ℕ) (nowA nowB : ℚ)
    (s : SpeedLimit)
    (hs : SpeedLimit.init 0 refresh_rate_seconds initial_bucket_size
        min_per_second check_interval too_slow_count nowA nowB = Except.ok s)
    (hr : 0 ≤ refresh_rate_seconds)
    (cs : List ChunkStep) (hsz : ∀ c ∈ cs, 0 ≤ c.sz)
    (hsum : (cs.map ChunkStep.sz).sum ≤
      10 ^ 10 * refresh_rate_seconds * initial_bucket_size) :
    (run s cs).2.1 = [] := by
  simp only [SpeedLimit.init] at hs
  split_ifs at hs
  all_goals
    first
    | exact Except.noConfusion hs
    | (simp only [Except.ok.injEq] at hs
       subst hs
       apply run_no_sleep cs _ hr
           (by simpa using mul_nonneg (by norm_num : (0:ℚ) ≤ 10 ^ 10) hr)
           hsz (by simpa using hsum))

/-- Witness for C9 (amended): unlimited mode, one item of size 5. -/
theorem claim9_witness :
    SpeedLimit.init 0 1 1 0 5 10 0 0 = Except.ok sUnlimited ∧
    (0:ℚ) ≤ 1 ∧
    (∀ c ∈ [ChunkStep.mk 5 0 0 0], 0 ≤ c.sz) ∧
    (([ChunkStep.mk 5 0 0 0].map ChunkStep.sz).sum ≤ 10 ^ 10 * 1 * 1) ∧
    (run sUnlimited [ChunkStep.mk 5 0 0 0]).2.1 = [] := by
  have hsz : ∀ c ∈ [ChunkStep.mk 5 0 0 0], 0 ≤ c.sz := by
    intro c hc
    rw [List.mem_singleton] at hc
    subst hc
    norm_num
  have hsum : ([ChunkStep.mk 5 0 0 0].map ChunkStep.sz).sum ≤ (10:ℚ) ^ 10 * 1 * 1 := by
    simp only [List.map, List.sum_cons, List.sum_nil]
    norm_num
  exact ⟨hinitUnl, by norm_num, hsz, hsum,
    claim9_unlimited_within_reserve 1 1 0 5 10 0 0 sUnlimited hinitUnl
      (by norm_num) [ChunkStep.mk 5 0 0 0] hsz hsum⟩

/-- C10: the violation counter `_slow_count` is monotonically
non-decreasing over the instance's lifetime: no `_check_fill`, loop
iteration, or whole `speed_limit_iter` run ever decreases it — in
particular a passing slowness check leaves it unchanged rather than
resetting it, so violations accumulate over the entire run. -/
theorem claim10_slow_count_monotone :
    (∀ (s : SpeedLimit) (now : ℚ), s.slow_count ≤ (checkFill s now).1.slow_count) ∧
    (∀ (s : SpeedLimit) (sz now1 now2 now3 : ℚ),
      s.slow_count ≤ (limitStep s sz now1 now2 now3).state.slow_count) ∧
    (∀ (s : SpeedLimit) (cs : List ChunkStep),
      s.slow_count ≤ (run s cs).1.slow_count) :=
  ⟨checkFill_slow_count_ge, limitStep_slow_count_ge,
    fun s cs => run_slow_count_ge cs s⟩

end SpeedLimitModel
